import Mathlib

/-!
# Verification of jedi's compiled-analysis subprocess layer

Shallow embedding of `jedi/evaluate/compiled/subprocess/__init__.py`:
the caller-side worker-process wrapper (`_CompiledSubprocess` /
`_Subprocess`), the per-evaluator session objects (`EvaluatorSubprocess`),
the worker-side dispatch loop (`Listener`), the identity-reconciling
unpickler (`_ModifiedUnpickler`) and the remote-object proxy
(`AccessHandle`).

Python dictionaries are embedded as association lists consulted through
`lookupKey`; `collections.deque` is embedded as a list whose right end is
the side `append` and `pop` operate on; exceptions are values of `Exc`
and raising code returns `Except Exc _`.
-/

namespace JediSubprocess

/-- Association-list lookup, embedding Python `dict.__getitem__` /
`dict.get`: the most recent binding of a key shadows older ones. -/
def lookupKey {κ α : Type} [DecidableEq κ] : List (κ × α) → κ → Option α
  | [], _ => none
  | (k, v) :: rest, key => if k = key then some v else lookupKey rest key

/-- Exception values transported across the wire (the code pickles the
exception object itself, so exceptions are first-class values here). -/
inductive Exc where
  /-- Python `KeyError` raised by a failed dict lookup (evaluator ids, handle ids). -/
  | keyError (key : Nat)
  /-- Python `TypeError`, e.g. calling a `None` function reference. -/
  | typeError
  /-- Python `AttributeError` raised by `AccessHandle.__getattr__`. -/
  | attributeError
  /-- A pickle decoding failure that is not end-of-input. -/
  | unpicklingError (msg : Nat)
  /-- Any exception raised by an invoked target function. -/
  | userError (code : Nat)
  deriving DecidableEq, Repr

/-- A reference into the fixed catalog of callable functions
(`functions.py`); both endpoints resolve it by name. -/
abbrev FuncRef := Nat

/-- A wire-level argument: a primitive value, or an `AccessHandle`
reduced to its numeric id (its `__getstate__` is just `self.id`). -/
inductive Arg where
  | prim (n : Nat)
  | handle (id : Nat)
  deriving DecidableEq, Repr

/-- The tuple `(evaluator_id, function, args, kwargs)` pickled by
`_Subprocess._send`: a `CallRequest`. -/
structure CallRequest where
  evaluatorId : Option Nat
  function : Option FuncRef
  args : List Arg
  kwargs : List (String × Arg)
  deriving DecidableEq, Repr

/-! ## Caller side: `_CompiledSubprocess` and its deletion queue

`_CompiledSubprocess.__init__` creates `self._evaluator_deletion_queue =
queue.deque()` (`queue.deque` is `collections.deque`);
`delete_evaluator` does `.append(evaluator_id)` (adds at the right end)
and the flush loop in `run` does `.pop()` (removes from the right end).
The deque is embedded as a `List Nat` whose right end is the end
`append`/`pop` act on. -/

/-- Embeds `collections.deque.append`: add an element at the right end. -/
def dequeAppend (q : List Nat) (x : Nat) : List Nat := q ++ [x]

/-- Embeds `collections.deque.pop`: remove and return the rightmost element;
`none` embeds the `IndexError` raised on an empty deque. -/
def dequePop : List Nat → Option (Nat × List Nat)
  | [] => none
  | x :: xs =>
    match dequePop xs with
    | none => some (x, [])
    | some (y, ys) => some (y, x :: ys)

theorem dequePop_eq_none {q : List Nat} (h : dequePop q = none) : q = [] := by
  cases q with
  | nil => rfl
  | cons x xs =>
    simp only [dequePop] at h
    cases hxs : dequePop xs with
    | none => rw [hxs] at h; simp at h
    | some p => rw [hxs] at h; simp at h

theorem dequePop_append {q : List Nat} {x : Nat} {q' : List Nat}
    (h : dequePop q = some (x, q')) : q = q' ++ [x] := by
  induction q generalizing x q' with
  | nil => simp [dequePop] at h
  | cons a as ih =>
    simp only [dequePop] at h
    cases has : dequePop as with
    | none =>
      rw [has] at h
      have : as = [] := dequePop_eq_none has
      subst this
      simp at h
      obtain ⟨h1, h2⟩ := h
      subst h1; subst h2
      rfl
    | some p =>
      obtain ⟨y, ys⟩ := p
      rw [has] at h
      simp at h
      obtain ⟨h1, h2⟩ := h
      subst h1
      have := ih has
      subst this
      rw [← h2]
      rfl

theorem dequePop_length {q : List Nat} {x : Nat} {q' : List Nat}
    (h : dequePop q = some (x, q')) : q'.length < q.length := by
  have := dequePop_append h
  subst this
  simp

set_option linter.unusedVariables false in
/-- The flush loop at the top of `_CompiledSubprocess.run`: repeatedly
`pop()` the deletion queue until `IndexError`, collecting the popped
evaluator ids in the order a destroy message is sent for each. -/
def flushIds (q : List Nat) : List Nat :=
  match h : dequePop q with
  | none => []
  | some (x, q') => x :: flushIds q'
termination_by q.length
decreasing_by exact dequePop_length h

/-- Popping from the right end of the deque over and over sends the ids
in reverse of their append order. -/
theorem flushIds_eq_reverse (q : List Nat) : flushIds q = q.reverse := by
  generalize hn : q.length = n
  induction n generalizing q with
  | zero =>
    have : q = [] := List.length_eq_zero.mp hn
    subst this
    rw [flushIds]
    split
    · rfl
    · next x q' hp => simp [dequePop] at hp
  | succ n ih =>
    rw [flushIds]
    split
    · next hp =>
      have : q = [] := dequePop_eq_none hp
      subst this; simp at hn
    · next x q' hp =>
      have hq : q = q' ++ [x] := dequePop_append hp
      subst hq
      simp only [List.reverse_append, List.reverse_singleton, List.singleton_append]
      have hlen : q'.length = n := by
        simpa using hn
      rw [ih q' hlen]

/-- A message written by the caller onto the worker's stdin: exactly the
`(evaluator_id, function, args, kwargs)` tuple of `_Subprocess._send`. -/
abbrev Message := CallRequest

/-- The destroy-session message sent for a popped evaluator id:
`self._send(evaluator_id, None)` with default empty args/kwargs. -/
def destroyMessage (evaluatorId : Nat) : Message :=
  ⟨some evaluatorId, none, [], []⟩

/-- The caller's real request: `self._send(id(evaluator), function, args,
kwargs, ...)` at the bottom of `run`. -/
def realCallMessage (evaluatorId : Nat) (f : FuncRef) (args : List Arg)
    (kwargs : List (String × Arg)) : Message :=
  ⟨some evaluatorId, some f, args, kwargs⟩

/-- The sequence of messages `_CompiledSubprocess.run` writes to the
worker, in order: one destroy message per popped deletion-queue entry,
then the caller's actual request. -/
def runMessages (q : List Nat) (evaluatorId : Nat) (f : FuncRef)
    (args : List Arg) (kwargs : List (String × Arg)) : List Message :=
  (flushIds q).map destroyMessage
    ++ [realCallMessage evaluatorId f args kwargs]

/-! ## Worker side: the `Listener` dispatch loop -/

/-- Modelled from the spec: the worker-side `Evaluator` object created by
`Listener._get_evaluator` (`Evaluator(None, project=project.Project())`)
lives outside this file's source; per the spec, on the worker side a
session "owns its own nested registry of RemoteHandles", consulted by
`_run` as `evaluator.compiled_subprocess.get_access_handle`.  The
session state is embedded as that registry: handle id to the local
access-handle object (a `Nat` token) wrapping the real object. -/
structure EvaluatorState where
  handles : List (Nat × Nat)
  deriving DecidableEq, Repr

/-- A value on the worker side of a dispatch: a primitive, an
`AccessHandle` left as unpickled (never exchanged), a registry entry
substituted for a handle argument, the evaluator object itself (passed
as the first argument of a session call), or Python `None`. -/
inductive RVal where
  | prim (n : Nat)
  | rawHandle (id : Nat)
  | localHandle (tok : Nat)
  | evaluatorRef (id : Nat)
  | none
  deriving DecidableEq, Repr

/-- The semantics of the function catalog (`functions.py`): a target
function takes the already-assembled positional arguments (for session
calls, the evaluator comes first) and keyword arguments, and either
returns a value or raises. -/
abbrev Interp := FuncRef → List RVal → List (String × RVal) → Except Exc RVal

/-- An unexchanged wire argument as the callee sees it (used on the
`evaluator_id is None` path, where `_run` passes `args` through). -/
def injectArg : Arg → RVal
  | .prim n => .prim n
  | .handle id => .rawHandle id

/-- State of `Listener.__init__`: `self._evaluators` starts as an empty
dict. -/
structure ListenerState where
  evaluators : List (Nat × EvaluatorState)
  deriving DecidableEq, Repr

namespace Listener

/-- Embeds `Listener._get_evaluator`: return the evaluator for this id, creating
and registering a fresh one on `KeyError`. -/
def getEvaluator (s : ListenerState) (evaluatorId : Nat) :
    EvaluatorState × ListenerState :=
  match lookupKey s.evaluators evaluatorId with
  | some ev => (ev, s)
  | Option.none =>
    let ev : EvaluatorState := { handles := [] }
    (ev, { evaluators := (evaluatorId, ev) :: s.evaluators })

/-- Embeds `del self._evaluators[evaluator_id]` in `Listener._run`: removes the
entry, or raises `KeyError` when the id is unknown. -/
def deleteEvaluator (s : ListenerState) (evaluatorId : Nat) :
    Except Exc ListenerState :=
  match lookupKey s.evaluators evaluatorId with
  | some _ =>
    .ok { evaluators := s.evaluators.filter (fun p => p.1 ≠ evaluatorId) }
  | Option.none => .error (.keyError evaluatorId)

/-- The handle-exchange step of `Listener._run` on one argument: an
`AccessHandle` argument is replaced by
`evaluator.compiled_subprocess.get_access_handle(arg.id)` (raising
`KeyError` when the id is not registered); any other value is kept. -/
def exchangeArg (ev : EvaluatorState) : Arg → Except Exc RVal
  | .prim n => .ok (.prim n)
  | .handle id =>
    match lookupKey ev.handles id with
    | some tok => .ok (.localHandle tok)
    | Option.none => .error (.keyError id)

/-- The `for i, arg in enumerate(args)` exchange loop over positional
arguments, stopping at the first raising lookup. -/
def exchangeArgs (ev : EvaluatorState) : List Arg → Except Exc (List RVal)
  | [] => .ok []
  | a :: rest =>
    match exchangeArg ev a with
    | .error e => .error e
    | .ok v =>
      match exchangeArgs ev rest with
      | .error e => .error e
      | .ok vs => .ok (v :: vs)

/-- The `for key, value in kwargs.items()` exchange loop over keyword
arguments. -/
def exchangeKwargs (ev : EvaluatorState) :
    List (String × Arg) → Except Exc (List (String × RVal))
  | [] => .ok []
  | (k, a) :: rest =>
    match exchangeArg ev a with
    | .error e => .error e
    | .ok v =>
      match exchangeKwargs ev rest with
      | .error e => .error e
      | .ok vs => .ok ((k, v) :: vs)

/-- Embeds `Listener._run`, with the listener's mutable `_evaluators` dict
passed explicitly.  Returns the outcome (value or raised exception)
together with the state as mutated up to the point of return or raise:

* `evaluator_id is None`: call the function directly on the raw
  arguments (a `None` function is not callable: `TypeError`);
* `function is None`: delete the session's state, return Python `None`;
* otherwise: resolve the evaluator (creating it if absent), exchange
  positional then keyword handle arguments against the session's
  registry, and invoke the function with the evaluator prepended. -/
def run (interp : Interp) (s : ListenerState) (req : CallRequest) :
    Except Exc RVal × ListenerState :=
  match req.evaluatorId with
  | Option.none =>
    match req.function with
    | some f =>
      (interp f (req.args.map injectArg)
        (req.kwargs.map (fun kv => (kv.1, injectArg kv.2))), s)
    | Option.none => (.error .typeError, s)
  | some evaluatorId =>
    match req.function with
    | Option.none =>
      match deleteEvaluator s evaluatorId with
      | .ok s' => (.ok .none, s')
      | .error e => (.error e, s)
    | some f =>
      let (ev, s') := getEvaluator s evaluatorId
      match exchangeArgs ev req.args with
      | .error e => (.error e, s')
      | .ok rargs =>
        match exchangeKwargs ev req.kwargs with
        | .error e => (.error e, s')
        | .ok rkwargs =>
          (interp f (.evaluatorRef evaluatorId :: rargs) rkwargs, s')

end Listener

/-- The `(is_exception, result)` pair pickled back by `Listener.listen`. -/
structure CallResponse where
  isException : Bool
  payload : RVal ⊕ Exc
  deriving DecidableEq, Repr

/-- What one `pickle.load(stdin)` in `Listener.listen` yields: end of
input (`EOFError`), some other decoding exception, or a request. -/
inductive StreamItem where
  | eof
  | decodeError (e : Exc)
  | request (req : CallRequest)
  deriving DecidableEq, Repr

/-- The outcome of one iteration of the `while True` loop of
`Listener.listen`. -/
inductive StepResult where
  /-- Reached by `exit(1)` on `EOFError`: the parent closed the stream. -/
  | exited (code : Nat)
  /-- An exception propagated out of the loop uncaught. -/
  | crashed (e : Exc)
  /-- A response was pickled and flushed; the loop continues with the
  updated listener state. -/
  | responded (resp : CallResponse) (s' : ListenerState)
  deriving DecidableEq, Repr

/-- One iteration of `Listener.listen`: `pickle.load` guarded only
against `EOFError` (which exits with status 1; any other decode
exception propagates), then `self._run(*payload)` guarded against
`Exception` (a raise becomes the response `(True, e)`, a normal return
the response `(False, result)`). -/
def listenStep (interp : Interp) (s : ListenerState) :
    StreamItem → StepResult
  | .eof => .exited 1
  | .decodeError e => .crashed e
  | .request req =>
    match Listener.run interp s req with
    | (.ok v, s') => .responded ⟨false, .inl v⟩ s'
    | (.error e, s') => .responded ⟨true, .inr e⟩ s'

/-- Why a finite run of the dispatch loop stopped. -/
inductive LoopEnd where
  | exited (code : Nat)
  | crashed (e : Exc)
  /-- The modelled input was exhausted; the real loop would block on the
  next `pickle.load`. -/
  | blocked
  deriving DecidableEq, Repr

/-- The `while True` loop of `Listener.listen` run over a finite prefix
of the input stream: the responses written in order, and how the loop
stopped. -/
def listenLoop (interp : Interp) (s : ListenerState) :
    List StreamItem → List CallResponse × LoopEnd
  | [] => ([], .blocked)
  | item :: rest =>
    match listenStep interp s item with
    | .exited c => ([], .exited c)
    | .crashed e => ([], .crashed e)
    | .responded resp s' =>
      let (rs, e) := listenLoop interp s' rest
      (resp :: rs, e)

/-- The tail of `_Subprocess._send` after a response has been read:
`if is_exception: raise result; return result`.  Raising re-raises the
transported payload itself. -/
def sendOutcome (resp : CallResponse) : Except (RVal ⊕ Exc) (RVal ⊕ Exc) :=
  if resp.isException then .error resp.payload else .ok resp.payload

/-! ## Caller-side wire traffic of one `run` -/

/-- One wire-level action of the caller inside `_send`: pickling a
request onto the worker's stdin, or blocking on one response from its
stdout. -/
inductive WireEvent where
  | write (m : Message)
  | readResponse
  deriving DecidableEq, Repr

/-- Embeds `_Subprocess._send`: write the request, then read exactly one
response. -/
def sendEvents (m : Message) : List WireEvent :=
  [.write m, .readResponse]

/-- All wire events of one `_CompiledSubprocess.run`: a `_send` per
flushed deletion-queue entry, then the `_send` of the real request. -/
def runEvents (q : List Nat) (evaluatorId : Nat) (f : FuncRef)
    (args : List Arg) (kwargs : List (String × Arg)) : List WireEvent :=
  ((flushIds q).map (fun i => sendEvents (destroyMessage i))).flatten
    ++ sendEvents (realCallMessage evaluatorId f args kwargs)

/-- The strict one-request-one-response alternation of the protocol:
writes and reads alternate, starting with a write. -/
def alternating : List WireEvent → Bool
  | [] => true
  | .write _ :: .readResponse :: rest => alternating rest
  | _ => false

/-! ## Decoding endpoint: `_ModifiedUnpickler.get_access_handle`

Handle instances are embedded as `Nat` tokens allocated from a counter,
so that "the identical instance" is token equality.  An endpoint
(`_EvaluatorProcess`) carries its registry `_handles` (handle id to
instance token) and, per instance token, the channel its `_subprocess`
field was bound to by `add_subprocess`. -/

/-- The state of one decoding endpoint together with its allocator of
handle-instance tokens. -/
structure DecodeEndpoint where
  /-- `_EvaluatorProcess._handles`: handle id to canonical instance. -/
  handles : List (Nat × Nat)
  /-- Per instance token, the channel bound by `add_subprocess`
  (`AccessHandle._subprocess`); unpickled instances start unbound. -/
  bound : List (Nat × Option Nat)
  /-- Allocator for fresh instance tokens. -/
  nextTok : Nat
  deriving DecidableEq, Repr

/-- Decoding one `AccessHandle` of id `id` at an endpoint whose channel
is `chan`: unpickling first builds a fresh instance carrying only the
id, then `_ModifiedUnpickler.get_access_handle` rewrites it to the
registered instance when the registry already knows the id, and
otherwise binds the fresh instance to the endpoint's channel
(`add_subprocess`) and registers it as canonical.  Returns the instance
left on the unpickler's stack and the updated endpoint. -/
def decodeHandle (ep : DecodeEndpoint) (chan : Nat) (id : Nat) :
    Nat × DecodeEndpoint :=
  let fresh := ep.nextTok
  match lookupKey ep.handles id with
  | some tok =>
    (tok, { ep with
            bound := (fresh, Option.none) :: ep.bound,
            nextTok := fresh + 1 })
  | Option.none =>
    (fresh, { handles := (id, fresh) :: ep.handles,
              bound := (fresh, some chan) :: ep.bound,
              nextTok := fresh + 1 })

/-! ## Caller-side sessions: `EvaluatorSubprocess` -/

/-- The caller-side session object (`EvaluatorSubprocess`): its
`_evaluator_id` and the `_used` flag set by the `wrapper` closure of
`__getattr__`. -/
structure SessionState where
  evaluatorId : Nat
  used : Bool
  deriving DecidableEq, Repr

/-- Embeds `EvaluatorSubprocess.__init__`: `self._used = False`. -/
def newSession (evaluatorId : Nat) : SessionState :=
  { evaluatorId := evaluatorId, used := false }

/-- The `wrapper` closure's effect on the session: `self._used = True`
(set on every remote invocation, before the call is issued). -/
def sessionCall (s : SessionState) : SessionState :=
  { s with used := true }

/-- Embeds `EvaluatorSubprocess.__del__`: enqueue the session id onto the
worker's deletion queue via `delete_evaluator` only when `_used`. -/
def sessionDel (s : SessionState) (q : List Nat) : List Nat :=
  if s.used then dequeAppend q s.evaluatorId else q

/-! ## The process-wide worker cache: `get_subprocess` -/

/-- The module-level `_subprocesses` dict plus an allocator of wrapper
tokens: each `_CompiledSubprocess(executable)` construction yields a
fresh instance token. -/
structure SubprocessCache where
  table : List (String × Nat)
  nextId : Nat
  deriving DecidableEq, Repr

/-- Embeds `get_subprocess(executable)`: return the cached wrapper, or on
`KeyError` construct a fresh `_CompiledSubprocess`, cache it and return
it. -/
def get_subprocess (c : SubprocessCache) (executable : String) :
    Nat × SubprocessCache :=
  match lookupKey c.table executable with
  | some sub => (sub, c)
  | Option.none =>
    (c.nextId, { table := (executable, c.nextId) :: c.table,
                 nextId := c.nextId + 1 })

/-! ## `AccessHandle` attribute access -/

/-- Which of the three bookkeeping instance attributes of an
`AccessHandle` are set.  `__init__` sets all three; `__setstate__`
(after unpickling) sets only `id`.  Stored values are abstracted away:
only presence matters to attribute lookup. -/
structure HandleAttrs where
  hasId : Bool
  hasSubprocess : Bool
  hasAccess : Bool
  deriving DecidableEq, Repr

/-- Embeds `AccessHandle.__init__(subprocess, access, id_)`: all three
bookkeeping attributes are set. -/
def handleInit : HandleAttrs := ⟨true, true, true⟩

/-- Embeds `AccessHandle.__setstate__(state)`: only `self.id = state`. -/
def handleSetstate : HandleAttrs := ⟨true, false, false⟩

/-- The outcome of an attribute access on an `AccessHandle`. -/
inductive AttrOutcome where
  /-- A set instance attribute was found by normal lookup. -/
  | storedValue
  /-- Python `AttributeError("Something went wrong with unpickling")`. -/
  | attrError
  /-- The `compiled_method` forwarding thunk returned by `__getattr__`
  for a non-bookkeeping name. -/
  | remoteMethod (name : String)
  deriving DecidableEq, Repr

/-- Whether `name` is one of the instance attributes the handle has set
(class-level attributes such as `add_subprocess` are elided: the claims
only concern instance attributes and the `__getattr__` fallback). -/
def hasInstanceAttr (h : HandleAttrs) (name : String) : Bool :=
  if name = "id" then h.hasId
  else if name = "_subprocess" then h.hasSubprocess
  else if name = "access" then h.hasAccess
  else false

/-- Embeds `AccessHandle.__getattr__`: reached only when normal lookup fails;
raises `AttributeError` for the three bookkeeping names, and otherwise
returns the `compiled_method` thunk forwarding to
`self._subprocess.get_compiled_method_return(self.id, name, ...)`. -/
def handleGetattrFallback (name : String) : AttrOutcome :=
  if name = "id" ∨ name = "_subprocess" ∨ name = "access" then .attrError
  else .remoteMethod name

/-- Python attribute access on an `AccessHandle`: a set instance
attribute is returned by normal lookup; otherwise `__getattr__` runs. -/
def handleGetAttr (h : HandleAttrs) (name : String) : AttrOutcome :=
  if hasInstanceAttr h name then .storedValue
  else handleGetattrFallback name

/-- Whether a loop iteration produced (and wrote) a response. -/
def StepResult.isResponse : StepResult → Bool
  | .responded _ _ => true
  | _ => false

/-- A concrete interpretation of the function catalog under which every
target function returns `None`; used to evaluate the model on concrete
inputs. -/
def trivialInterp : Interp := fun _ _ _ => .ok RVal.none

/-- A concrete interpretation under which target function `0` raises and
every other target function returns a primitive; used to exercise the
failure paths on concrete inputs. -/
def flakyInterp : Interp := fun f _ _ =>
  if f = 0 then .error (.userError 3) else .ok (.prim 9)

end JediSubprocess

namespace JediSubprocess

/-! # Theorems -/

/-- A `lookupKey` miss means exactly the keys that are not bound. -/
theorem lookupKey_eq_none_not_mem {κ α : Type} [DecidableEq κ]
    {l : List (κ × α)} {k : κ} (h : lookupKey l k = Option.none) :
    k ∉ l.map Prod.fst := by
  induction l with
  | nil => simp
  | cons p rest ih =>
    obtain ⟨a, b⟩ := p
    simp only [lookupKey] at h
    by_cases hak : a = k
    · simp [hak] at h
    · simp only [if_neg hak] at h
      simp only [List.map_cons, List.mem_cons]
      rintro (h1 | h2)
      · exact hak h1.symm
      · exact ih h h2

/-- A successful `lookupKey` returns a binding present in the list. -/
theorem lookupKey_mem {κ α : Type} [DecidableEq κ]
    {l : List (κ × α)} {k : κ} {v : α} (h : lookupKey l k = some v) :
    (k, v) ∈ l := by
  induction l with
  | nil => simp [lookupKey] at h
  | cons p rest ih =>
    obtain ⟨a, b⟩ := p
    simp only [lookupKey] at h
    by_cases hak : a = k
    · subst hak
      simp at h
      subst h
      exact List.mem_cons_self _ _
    · simp only [if_neg hak] at h
      exact List.mem_cons_of_mem _ (ih h)

/-- Successful positional-argument exchange acts pointwise: the value at
index `i` of the output is the exchange of the argument at index `i`. -/
theorem exchangeArgs_get {ev : EvaluatorState} :
    ∀ {args : List Arg} {rargs : List RVal},
      Listener.exchangeArgs ev args = Except.ok rargs →
      ∀ (i : Nat) (a : Arg), args[i]? = some a →
        ∃ v, rargs[i]? = some v ∧ Listener.exchangeArg ev a = Except.ok v := by
  intro args
  induction args with
  | nil =>
    intro rargs _ i a ha
    simp at ha
  | cons hd tl ih =>
    intro rargs hok i a ha
    simp only [Listener.exchangeArgs] at hok
    cases hhd : Listener.exchangeArg ev hd with
    | error e => rw [hhd] at hok; simp at hok
    | ok v =>
      rw [hhd] at hok
      cases htl : Listener.exchangeArgs ev tl with
      | error e => rw [htl] at hok; simp at hok
      | ok vs =>
        rw [htl] at hok
        simp at hok
        subst hok
        cases i with
        | zero =>
          simp at ha
          subst ha
          exact ⟨v, by simp, hhd⟩
        | succ n =>
          simp only [List.getElem?_cons_succ] at ha ⊢
          exact ih htl n a ha

/-- Successful keyword-argument exchange acts pointwise: keys are kept
and each value is the exchange of the original value. -/
theorem exchangeKwargs_get {ev : EvaluatorState} :
    ∀ {kwargs : List (String × Arg)} {rkwargs : List (String × RVal)},
      Listener.exchangeKwargs ev kwargs = Except.ok rkwargs →
      ∀ (i : Nat) (k : String) (a : Arg), kwargs[i]? = some (k, a) →
        ∃ v, rkwargs[i]? = some (k, v) ∧ Listener.exchangeArg ev a = Except.ok v := by
  intro kwargs
  induction kwargs with
  | nil =>
    intro rkwargs _ i k a ha
    simp at ha
  | cons hd tl ih =>
    intro rkwargs hok i k a ha
    obtain ⟨hk, harg⟩ := hd
    simp only [Listener.exchangeKwargs] at hok
    cases hhd : Listener.exchangeArg ev harg with
    | error e => rw [hhd] at hok; simp at hok
    | ok v =>
      rw [hhd] at hok
      cases htl : Listener.exchangeKwargs ev tl with
      | error e => rw [htl] at hok; simp at hok
      | ok vs =>
        rw [htl] at hok
        simp at hok
        subst hok
        cases i with
        | zero =>
          simp at ha
          obtain ⟨hk1, hk2⟩ := ha
          subst hk1; subst hk2
          exact ⟨v, by simp, hhd⟩
        | succ n =>
          simp only [List.getElem?_cons_succ] at ha ⊢
          exact ih htl n k a ha

/-- Folding the `wrapper` body over any sequence of invocations either
leaves a session untouched (no invocation) or just sets `_used`. -/
theorem foldl_sessionCall (l : List FuncRef) (s : SessionState) :
    l.foldl (fun t _ => sessionCall t) s
      = if l.isEmpty then s else { s with used := true } := by
  induction l generalizing s with
  | nil => simp
  | cons a l ih =>
    simp only [List.foldl_cons, List.isEmpty_cons, ih (sessionCall s)]
    cases l <;> simp [sessionCall]

/-- A block of `_send`s (one per flushed id, then the real call) always
has the strict write/read alternation. -/
theorem alternating_flush (ids : List Nat) (m : Message) :
    alternating
      (((ids.map (fun i => sendEvents (destroyMessage i))).flatten)
        ++ sendEvents m) = true := by
  induction ids with
  | nil => rfl
  | cons i ids ih =>
    simpa [sendEvents, alternating] using ih

/-- The loop only ever reports `exit(1)` after reading end-of-input. -/
theorem listenLoop_exited_mem (interp : Interp) :
    ∀ (items : List StreamItem) (s : ListenerState) (c : Nat),
      (listenLoop interp s items).2 = LoopEnd.exited c →
      StreamItem.eof ∈ items := by
  intro items
  induction items with
  | nil =>
    intro s c h
    simp [listenLoop] at h
  | cons item rest ih =>
    intro s c h
    cases item with
    | eof => exact List.mem_cons_self _ _
    | decodeError e =>
      simp [listenLoop, listenStep] at h
    | request req =>
      simp only [listenLoop, listenStep] at h
      cases hrun : Listener.run interp s req with
      | mk r s' =>
        rw [hrun] at h
        cases r with
        | ok v =>
          simp at h
          exact List.mem_cons_of_mem _ (ih s' c h)
        | error e =>
          simp at h
          exact List.mem_cons_of_mem _ (ih s' c h)

/-- C1, counterexample: with ids 1 then 2 enqueued by `delete_evaluator`,
`run` does not send the destroy messages in FIFO (enqueue) order — the
deque is popped from the end `append` adds to. -/
theorem c1_counterexample :
    runMessages [1, 2] 7 3 [] []
      ≠ [destroyMessage 1, destroyMessage 2, realCallMessage 7 3 [] []] := by
  rw [runMessages, flushIds_eq_reverse]
  decide

/-- C1 (amended): whenever `run` issues a real call, every pending
session id is popped from the Deletion Queue and a destroy-session
message (session id with a `None` function reference) is sent for each
in LIFO order — the reverse of the order in which
`delete_evaluator` enqueued them, since `append` and `pop` both act on
the deque's right end — all strictly before the caller's actual request
is written. -/
theorem c1_run_flushes_queue_lifo_before_request (q : List Nat)
    (evaluatorId : Nat) (f : FuncRef) (args : List Arg)
    (kwargs : List (String × Arg)) :
    runMessages q evaluatorId f args kwargs
      = (q.reverse.map destroyMessage)
        ++ [realCallMessage evaluatorId f args kwargs] := by
  rw [runMessages, flushIds_eq_reverse]

/-- C7: on teardown (`__del__`), a session enqueues its evaluator id
onto the deletion queue exactly when at least one remote invocation was
issued through it (`_used`); a session never used enqueues nothing. -/
theorem c7_del_enqueues_iff_used (evaluatorId : Nat) (calls : List FuncRef)
    (q : List Nat) :
    sessionDel (calls.foldl (fun s _ => sessionCall s) (newSession evaluatorId)) q
      = if calls.isEmpty then q else dequeAppend q evaluatorId := by
  rw [foldl_sessionCall]
  cases calls <;> simp [sessionDel, newSession, sessionCall]

/-- C8: `get_subprocess` is idempotent per executable — the second call
returns the identical cached wrapper and leaves the cache unchanged —
the cache keeps at most one wrapper per executable, and a new wrapper is
constructed only when the executable is not yet cached. -/
theorem c8_get_subprocess_idempotent (c : SubprocessCache) (exe : String)
    (hnodup : (c.table.map Prod.fst).Nodup) :
    get_subprocess (get_subprocess c exe).2 exe
      = ((get_subprocess c exe).1, (get_subprocess c exe).2)
    ∧ ((get_subprocess c exe).2.table.map Prod.fst).Nodup
    ∧ (match lookupKey c.table exe with
       | some sub => get_subprocess c exe = (sub, c)
       | Option.none =>
           (get_subprocess c exe).1 = c.nextId
           ∧ (get_subprocess c exe).2.table = (exe, c.nextId) :: c.table) := by
  cases h : lookupKey c.table exe with
  | some sub =>
    refine ⟨?_, ?_, ?_⟩
    · simp [get_subprocess, h]
    · simp [get_subprocess, h, hnodup]
    · simp [get_subprocess, h]
  | none =>
    have hmem : exe ∉ c.table.map Prod.fst := lookupKey_eq_none_not_mem h
    refine ⟨?_, ?_, ?_⟩
    · simp [get_subprocess, h, lookupKey]
    · simp [get_subprocess, h, List.nodup_cons, hmem, hnodup]
    · simp [get_subprocess, h]

/-- C8, witness: on a fresh cache, looking the same executable up twice
returns the wrapper created by the first call, unchanged. -/
theorem c8_witness :
    get_subprocess (get_subprocess ⟨[], 0⟩ "python3").2 "python3"
      = ((get_subprocess ⟨[], 0⟩ "python3").1,
         (get_subprocess ⟨[], 0⟩ "python3").2) :=
  (c8_get_subprocess_idempotent ⟨[], 0⟩ "python3" (by simp)).1

/-- C10: accessing a bookkeeping attribute (`id`, `_subprocess`,
`access`) that is not set on an `AccessHandle` raises `AttributeError`
instead of producing the dynamic forwarding thunk; in particular after
`__setstate__` (which restores only `id`), `_subprocess` and `access`
raise while `id` is found. -/
theorem c10_unset_bookkeeping_attr_raises (h : HandleAttrs) (name : String)
    (hbook : name = "id" ∨ name = "_subprocess" ∨ name = "access")
    (hunset : hasInstanceAttr h name = false) :
    handleGetAttr h name = AttrOutcome.attrError
    ∧ handleGetAttr handleSetstate "_subprocess" = AttrOutcome.attrError
    ∧ handleGetAttr handleSetstate "access" = AttrOutcome.attrError
    ∧ handleGetAttr handleSetstate "id" = AttrOutcome.storedValue := by
  refine ⟨?_, by decide, by decide, by decide⟩
  rw [handleGetAttr, hunset]
  simp only [Bool.false_eq_true, if_false]
  rw [handleGetattrFallback, if_pos hbook]

/-- C10, witness: after unpickling, `_subprocess` is unset and accessing
it raises. -/
theorem c10_witness :
    handleGetAttr handleSetstate "_subprocess" = AttrOutcome.attrError :=
  (c10_unset_bookkeeping_attr_raises handleSetstate "_subprocess"
    (Or.inr (Or.inl rfl)) (by decide)).1

/-- C2, counterexample: a decoding exception that is not end-of-input
(e.g. a malformed pickle) is not caught and not encoded as a failing
`CallResponse`: it propagates out of the iteration. -/
theorem c2_counterexample :
    StepResult.isResponse
        (listenStep trivialInterp ⟨[]⟩
          (StreamItem.decodeError (Exc.unpicklingError 0))) = false
    ∧ listenStep trivialInterp ⟨[]⟩
        (StreamItem.decodeError (Exc.unpicklingError 0))
      = StepResult.crashed (Exc.unpicklingError 0) := by
  exact ⟨rfl, rfl⟩

/-- C2 (amended): any exception raised while dispatching a decoded
request (request-tuple unpacking, session-state resolution,
handle-argument resolution, target-function invocation) is caught and
encoded as a failing `CallResponse` carrying the exception object
itself; but an exception raised while decoding is not caught:
end-of-input exits the process with status 1 and any other decoding
exception propagates, terminating the loop. -/
theorem c2_dispatch_exceptions_caught (interp : Interp) (s : ListenerState)
    (req : CallRequest) (e : Exc) (d : Exc)
    (hfail : (Listener.run interp s req).1 = Except.error e) :
    listenStep interp s (StreamItem.request req)
      = StepResult.responded ⟨true, Sum.inr e⟩ (Listener.run interp s req).2
    ∧ listenStep interp s StreamItem.eof = StepResult.exited 1
    ∧ listenStep interp s (StreamItem.decodeError d) = StepResult.crashed d := by
  refine ⟨?_, rfl, rfl⟩
  cases hrun : Listener.run interp s req with
  | mk r s' =>
    rw [hrun] at hfail
    simp at hfail
    subst hfail
    simp [listenStep, hrun]

/-- C2, witness: deleting an unknown session raises `KeyError`, which the
loop catches and encodes as `(True, KeyError(5))`. -/
theorem c2_witness :
    listenStep trivialInterp ⟨[]⟩
        (StreamItem.request ⟨some 5, Option.none, [], []⟩)
      = StepResult.responded ⟨true, Sum.inr (Exc.keyError 5)⟩
          (Listener.run trivialInterp ⟨[]⟩ ⟨some 5, Option.none, [], []⟩).2 :=
  (c2_dispatch_exceptions_caught trivialInterp ⟨[]⟩
    ⟨some 5, Option.none, [], []⟩ (Exc.keyError 5) (Exc.keyError 5) rfl).1

/-- C3: decoding two `CallResponse`s carrying a handle with the same id
at the same endpoint yields the identical handle instance the second
time; the second decode changes neither the registry entry nor the
channel binding of that instance; and the first decode either substitutes
the already-registered instance (keeping its binding) or registers the
freshly reconstructed instance and binds it to the endpoint's channel. -/
theorem c3_decode_handle_dedup (ep : DecodeEndpoint) (chan id : Nat)
    (hwf : ∀ p ∈ ep.handles, p.2 < ep.nextTok) :
    (decodeHandle (decodeHandle ep chan id).2 chan id).1
      = (decodeHandle ep chan id).1
    ∧ lookupKey (decodeHandle ep chan id).2.handles id
      = some (decodeHandle ep chan id).1
    ∧ lookupKey (decodeHandle (decodeHandle ep chan id).2 chan id).2.handles id
      = some (decodeHandle ep chan id).1
    ∧ lookupKey (decodeHandle (decodeHandle ep chan id).2 chan id).2.bound
        (decodeHandle ep chan id).1
      = lookupKey (decodeHandle ep chan id).2.bound (decodeHandle ep chan id).1
    ∧ (match lookupKey ep.handles id with
       | some tok =>
           (decodeHandle ep chan id).1 = tok
           ∧ lookupKey (decodeHandle ep chan id).2.bound tok
             = lookupKey ep.bound tok
       | Option.none =>
           lookupKey (decodeHandle ep chan id).2.bound
             (decodeHandle ep chan id).1 = some chan) := by
  cases h : lookupKey ep.handles id with
  | some tok =>
    have htok : tok < ep.nextTok := hwf (id, tok) (lookupKey_mem h)
    have hne : ep.nextTok ≠ tok := Nat.ne_of_gt htok
    have hne1 : ep.nextTok + 1 ≠ tok :=
      Nat.ne_of_gt (Nat.lt_succ_of_lt htok)
    refine ⟨?_, ?_, ?_, ?_, ?_⟩ <;>
      simp [decodeHandle, h, lookupKey, hne, hne1]
  | none =>
    have hfresh : ep.nextTok + 1 ≠ ep.nextTok := Nat.succ_ne_self _
    refine ⟨?_, ?_, ?_, ?_, ?_⟩ <;>
      simp [decodeHandle, h, lookupKey, hfresh]

/-- C3, witness: at a fresh endpoint, the second decode of handle id 42
returns the instance registered and bound by the first decode. -/
theorem c3_witness :
    (decodeHandle (decodeHandle ⟨[], [], 0⟩ 5 42).2 5 42).1
      = (decodeHandle ⟨[], [], 0⟩ 5 42).1 :=
  (c3_decode_handle_dedup ⟨[], [], 0⟩ 5 42 (by simp)).1

/-- C4: deletion traffic keeps the one-request-one-response alternation:
the wire events of a `run` (destroy messages flushed first, then the
real request) strictly alternate write/read starting with a write, and
the worker answers a destroy-session request with exactly one response
before reading on. -/
theorem c4_deletion_request_response_cadence (q : List Nat)
    (evaluatorId : Nat) (f : FuncRef) (args : List Arg)
    (kwargs : List (String × Arg)) (interp : Interp) (s : ListenerState)
    (delId : Nat) :
    alternating (runEvents q evaluatorId f args kwargs) = true
    ∧ (listenLoop interp s [StreamItem.request (destroyMessage delId)]).1.length = 1
    ∧ (listenLoop interp s [StreamItem.request (destroyMessage delId)]).2
      = LoopEnd.blocked := by
  refine ⟨alternating_flush _ _, ?_, ?_⟩ <;>
  · simp only [listenLoop, listenStep, destroyMessage]
    cases hrun : Listener.run interp s ⟨some delId, Option.none, [], []⟩ with
    | mk r s' => cases r <;> simp [listenLoop]

/-- C5, counterexample: an input yielding a decoding exception — with no
closure of the stream — also terminates the dispatch loop (the exception
propagates), so stream closure is not the only terminator. -/
theorem c5_counterexample :
    listenLoop trivialInterp ⟨[]⟩
        [StreamItem.decodeError (Exc.unpicklingError 1)]
      = ([], LoopEnd.crashed (Exc.unpicklingError 1))
    ∧ decide (StreamItem.eof
        ∈ [StreamItem.decodeError (Exc.unpicklingError 1)]) = false := by
  exact ⟨rfl, rfl⟩

/-- C5 (amended): a remote execution failure never terminates the
dispatch loop — after answering a request whose dispatch raised, the
loop serves a subsequent unrelated call on the same worker normally —
and the loop exits (status 1) only upon end-of-input on the request
stream; an exception while decoding a request, however, also terminates
the loop by propagating. -/
theorem c5_worker_isolation (interp : Interp) (s : ListenerState)
    (req req2 : CallRequest) (e : Exc) (v : RVal) (rest : List StreamItem)
    (hfail : (Listener.run interp s req).1 = Except.error e)
    (hok : (Listener.run interp (Listener.run interp s req).2 req2).1
      = Except.ok v) :
    listenLoop interp s
        (StreamItem.request req :: StreamItem.request req2 :: rest)
      = (⟨true, Sum.inr e⟩ :: ⟨false, Sum.inl v⟩ ::
          (listenLoop interp
            (Listener.run interp (Listener.run interp s req).2 req2).2 rest).1,
         (listenLoop interp
            (Listener.run interp (Listener.run interp s req).2 req2).2 rest).2)
    ∧ (∀ (items : List StreamItem) (c : Nat),
        (listenLoop interp s items).2 = LoopEnd.exited c →
        StreamItem.eof ∈ items) := by
  constructor
  · cases hrun1 : Listener.run interp s req with
    | mk r1 s1 =>
      rw [hrun1] at hfail hok
      simp at hfail
      subst hfail
      cases hrun2 : Listener.run interp s1 req2 with
      | mk r2 s2 =>
        rw [hrun2] at hok
        simp at hok
        subst hok
        simp [listenLoop, listenStep, hrun1, hrun2]
  · intro items c h
    exact listenLoop_exited_mem interp items s c h

/-- C5, witness: target function 0 raises on session 1, yet the next
request (function 5 on the same session) is answered normally and the
loop then exits only at end-of-input. -/
theorem c5_witness :
    listenLoop flakyInterp ⟨[]⟩
        [StreamItem.request ⟨some 1, some 0, [], []⟩,
         StreamItem.request ⟨some 1, some 5, [], []⟩, StreamItem.eof]
      = (⟨true, Sum.inr (Exc.userError 3)⟩ :: ⟨false, Sum.inl (RVal.prim 9)⟩ ::
          (listenLoop flakyInterp
            (Listener.run flakyInterp
              (Listener.run flakyInterp ⟨[]⟩ ⟨some 1, some 0, [], []⟩).2
              ⟨some 1, some 5, [], []⟩).2 [StreamItem.eof]).1,
         (listenLoop flakyInterp
            (Listener.run flakyInterp
              (Listener.run flakyInterp ⟨[]⟩ ⟨some 1, some 0, [], []⟩).2
              ⟨some 1, some 5, [], []⟩).2 [StreamItem.eof]).2) :=
  (c5_worker_isolation flakyInterp ⟨[]⟩ ⟨some 1, some 0, [], []⟩
    ⟨some 1, some 5, [], []⟩ (Exc.userError 3) (RVal.prim 9)
    [StreamItem.eof] rfl rfl).1

/-- C6: when a `CallResponse`'s failure flag is set, `_send` re-raises
the transported payload — the very exception object the dispatch loop
captured from the raising target function — and when the flag is clear
`_send` returns the payload unchanged. -/
theorem c6_send_reraises_failure (interp : Interp) (s : ListenerState)
    (req : CallRequest) (e : Exc) (p : RVal ⊕ Exc)
    (hfail : (Listener.run interp s req).1 = Except.error e) :
    listenStep interp s (StreamItem.request req)
      = StepResult.responded ⟨true, Sum.inr e⟩ (Listener.run interp s req).2
    ∧ sendOutcome ⟨true, Sum.inr e⟩ = Except.error (Sum.inr e)
    ∧ sendOutcome ⟨false, p⟩ = Except.ok p := by
  refine ⟨?_, rfl, rfl⟩
  cases hrun : Listener.run interp s req with
  | mk r s' =>
    rw [hrun] at hfail
    simp at hfail
    subst hfail
    simp [listenStep, hrun]

/-- C6, witness: the `userError 3` raised by target function 0 in the
worker is tagged `(True, e)` there and re-raised as-is by the caller's
`_send`, while a success payload passes through unchanged. -/
theorem c6_witness :
    (listenStep flakyInterp ⟨[]⟩
        (StreamItem.request ⟨some 1, some 0, [], []⟩)
      = StepResult.responded ⟨true, Sum.inr (Exc.userError 3)⟩
          (Listener.run flakyInterp ⟨[]⟩ ⟨some 1, some 0, [], []⟩).2)
    ∧ sendOutcome ⟨true, Sum.inr (Exc.userError 3)⟩
      = Except.error (Sum.inr (Exc.userError 3))
    ∧ sendOutcome ⟨false, Sum.inl (RVal.prim 9)⟩
      = Except.ok (Sum.inl (RVal.prim 9)) :=
  c6_send_reraises_failure flakyInterp ⟨[]⟩ ⟨some 1, some 0, [], []⟩
    (Exc.userError 3) (Sum.inl (RVal.prim 9)) rfl

/-- C9: a request with both a session id and a function reference
resolves the session's state (creating and registering it if absent),
replaces every positional and keyword `AccessHandle` argument by the
entry for its id in that session's handle registry, and invokes the
target function with the session state prepended before the resolved
arguments. -/
theorem c9_session_dispatch (interp : Interp) (s : ListenerState)
    (evaluatorId : Nat) (f : FuncRef) (args : List Arg)
    (kwargs : List (String × Arg)) (rargs : List RVal)
    (rkwargs : List (String × RVal))
    (h1 : Listener.exchangeArgs (Listener.getEvaluator s evaluatorId).1 args
      = Except.ok rargs)
    (h2 : Listener.exchangeKwargs (Listener.getEvaluator s evaluatorId).1 kwargs
      = Except.ok rkwargs) :
    Listener.run interp s ⟨some evaluatorId, some f, args, kwargs⟩
      = (interp f (RVal.evaluatorRef evaluatorId :: rargs) rkwargs,
         (Listener.getEvaluator s evaluatorId).2)
    ∧ lookupKey (Listener.getEvaluator s evaluatorId).2.evaluators evaluatorId
      = some (Listener.getEvaluator s evaluatorId).1
    ∧ (∀ (i hid tok : Nat),
        args[i]? = some (Arg.handle hid) →
        lookupKey (Listener.getEvaluator s evaluatorId).1.handles hid = some tok →
        rargs[i]? = some (RVal.localHandle tok))
    ∧ (∀ (i n : Nat), args[i]? = some (Arg.prim n) →
        rargs[i]? = some (RVal.prim n))
    ∧ (∀ (i hid tok : Nat) (k : String),
        kwargs[i]? = some (k, Arg.handle hid) →
        lookupKey (Listener.getEvaluator s evaluatorId).1.handles hid = some tok →
        rkwargs[i]? = some (k, RVal.localHandle tok)) := by
  refine ⟨?_, ?_, ?_, ?_, ?_⟩
  · simp only [Listener.run]
    rw [h1, h2]
  · rw [Listener.getEvaluator]
    cases h : lookupKey s.evaluators evaluatorId with
    | some ev => simpa using h
    | none => simp [lookupKey]
  · intro i hid tok ha hlk
    obtain ⟨v, hv, hex⟩ := exchangeArgs_get h1 i (Arg.handle hid) ha
    rw [Listener.exchangeArg, hlk] at hex
    simp at hex
    rw [hv, hex]
  · intro i n ha
    obtain ⟨v, hv, hex⟩ := exchangeArgs_get h1 i (Arg.prim n) ha
    rw [Listener.exchangeArg] at hex
    simp at hex
    rw [hv, hex]
  · intro i hid tok k ha hlk
    obtain ⟨v, hv, hex⟩ := exchangeKwargs_get h2 i k (Arg.handle hid) ha
    rw [Listener.exchangeArg, hlk] at hex
    simp at hex
    rw [hv, hex]

/-- C9, witness: on a session whose registry maps handle id 10 to the
local access handle 99, dispatching function 2 with arguments
`[handle 10, prim 4]` invokes it on the evaluator followed by the
exchanged arguments. -/
theorem c9_witness :
    Listener.run trivialInterp ⟨[(1, ⟨[(10, 99)]⟩)]⟩
        ⟨some 1, some 2, [Arg.handle 10, Arg.prim 4], []⟩
      = (trivialInterp 2
           [RVal.evaluatorRef 1, RVal.localHandle 99, RVal.prim 4] [],
         (Listener.getEvaluator ⟨[(1, ⟨[(10, 99)]⟩)]⟩ 1).2) :=
  (c9_session_dispatch trivialInterp ⟨[(1, ⟨[(10, 99)]⟩)]⟩ 1 2
    [Arg.handle 10, Arg.prim 4] [] [RVal.localHandle 99, RVal.prim 4] []
    rfl rfl).1

end JediSubprocess
